import Mathlib

set_option maxRecDepth 40000

/-!
Verification of the instruction-composer logic of the mcp-use MCP server
(`src/index.ts`).  The server registers two tools, `run-server` and
`deploy-server`; each handler is a pure function from its (defaulted)
parameters to a formatted instruction string built by template
interpolation.  We embed the two handlers shallowly: the template literals
become explicit string concatenations, the JS number interpolation becomes
`Int.repr`, and the parameter-default destructuring becomes `Option.getD`.
Substring occurrence (`strContains`) is an executable scan over the
character lists, related to `List.IsInfix` by `strContains_iff`.
-/

/-- Boolean test that the first list is a prefix of the second. -/
def prefB : List Char → List Char → Bool
  | [], _ => true
  | _ :: _, [] => false
  | a :: as, b :: bs => if a = b then prefB as bs else false

/-- Boolean substring scan: does `pat` occur inside the second list? -/
def scanB (pat : List Char) : List Char → Bool
  | [] => prefB pat []
  | b :: t => if prefB pat (b :: t) then true else scanB pat t

/-- Substring occurrence: the executable scan, as a proposition. -/
def strContains (s pat : String) : Prop := scanB pat.data s.data = true

/-- Prefix occurrence: the executable test, as a proposition. -/
def strStartsWith (s pre : String) : Prop := prefB pre.data s.data = true

instance (s pat : String) : Decidable (strContains s pat) :=
  inferInstanceAs (Decidable (scanB pat.data s.data = true))

instance (s pre : String) : Decidable (strStartsWith s pre) :=
  inferInstanceAs (Decidable (prefB pre.data s.data = true))

/-- The ten decimal digit characters. -/
def digitChars : List Char := ['0', '1', '2', '3', '4', '5', '6', '7', '8', '9']

/-- Package-manager token, from `const packageManager = useYarn ? "yarn" : "npm"`. -/
def packageManager (useYarn : Bool) : String :=
  if useYarn then "yarn" else "npm"

/-- Concatenation of a list of strings (explicit chunk form of a template literal). -/
def catList : List String → String
  | [] => ""
  | s :: t => s ++ catList t

/-- The chunks of the `run-server` template literal, in source order; `port` is the
already-rendered decimal string interpolated by the JS template. -/
def runChunks (useYarn : Bool) (port : String) : List String :=
  ["To run your MCP server locally:\n\n**Development mode (with hot reload):**\n```bash\n",
   packageManager useYarn,
   " run dev\n```\n\n**Production mode:**\n```bash\n# First build\n",
   packageManager useYarn,
   " run build\n\n# Then start\n",
   packageManager useYarn,
   " start\n```\n\n**With custom port:**\n```bash\n",
   "PORT=" ++ port ++ " " ++ packageManager useYarn ++ " start",
   "\n```\n\n**Test with tunneling (before deployment):**\n```bash\n# Option 1: Auto-tunnel\n",
   "mcp-use start --port " ++ port ++ " --tunnel",
   "\n\n# Option 2: Separate tunnel\n",
   packageManager useYarn,
   " start  # Terminal 1\n",
   "npx @mcp-use/tunnel " ++ port,
   "  # Terminal 2\n```\n\nYour server will be available at:\n- 🌐 MCP endpoint: http://localhost:",
   port,
   "/mcp\n- 🔍 Inspector UI: http://localhost:",
   port,
   "/inspector\n- 🔒 Tunnel URL: https://[subdomain].local.mcp-use.run/mcp (when using tunnel)\n\n**Tunnel details:**\n- Expires after 24 hours\n- Closes after 1 hour of inactivity\n- Use to test with ChatGPT before deploying\n\nLearn more: https://mcp-use.com/docs/tunneling"]

/-- The `run-server` tool handler body with the port already rendered to a string. -/
def runServerTemplate (useYarn : Bool) (port : String) : String :=
  catList (runChunks useYarn port)

/-- The `run-server` tool handler: JS interpolates the number `port` in decimal. -/
def runServer (useYarn : Bool) (port : Int) : String :=
  runServerTemplate useYarn (Int.repr port)

/-- The `run-server` handler as invoked by the framework: omitted parameters take the
declared defaults `useYarn = true`, `port = 3000`. -/
def runServerOpt (useYarn : Option Bool) (port : Option Int) : String :=
  runServer (useYarn.getD true) (port.getD 3000)

/-- Fixed header of the `deploy-server` output. -/
def deployHeader : String := "# Deploy Your MCP Server\n\n"

/-- The mcp-use-cloud branch of the `deploy-server` template. -/
def cloudBranch (packageManager : String) : String :=
  catList ["## Deploy to mcp-use Cloud (Recommended)\n\n**Step 1: Login (if not already logged in)**\n```bash\nnpx mcp-use login\n```\n\n**Step 2: Deploy**\n```bash\n",
    packageManager,
    " run deploy\n```\n\n**If deployment fails with authentication error:**\n```bash\n# Run login command\nnpx mcp-use login\n\n# Then try deploy again\n",
    packageManager,
    " run deploy\n```\n\n**After successful deployment:**\n- ✅ You\x27ll receive a public URL for your MCP server\n- ✅ The server is automatically scaled and monitored\n- ✅ HTTPS is enabled by default\n- ✅ Zero-downtime deployments\n\n**Deployment URL format:**\n`https://your-server-name.mcp-use.com/mcp`\n\nUse this URL to connect from ChatGPT, Claude, or other MCP clients."]

/-- The supabase branch of the `deploy-server` template (no interpolation). -/
def supabaseBranch : String := "## Deploy to Supabase\n\n**Step 1: Install Supabase CLI**\n```bash\nnpm install -g supabase\n```\n\n**Step 2: Initialize Supabase**\n```bash\nsupabase init\n```\n\n**Step 3: Deploy as Edge Function**\n```bash\nsupabase functions deploy mcp-server\n```\n\nSee full guide: https://docs.mcp-use.com/typescript/server/deployment/supabase"

/-- The fallback (custom platform) branch of the `deploy-server` template. -/
def otherBranch : String := "## Deploy to Custom Platform\n\nFor other deployment platforms:\n- **Vercel**: Use `vercel deploy`\n- **Netlify**: Use `netlify deploy`\n- **Railway**: Use `railway up`\n- **Docker**: Build and deploy container\n\nSee deployment docs: https://docs.mcp-use.com/typescript/server/deployment"

/-- The `deploy-server` tool handler: header plus the branch selected by the
if/else-if/else chain on `platform`.  The platform is a string here because the
enum restriction lives in the Zod schema, outside the handler body. -/
def deployServer (useYarn : Bool) (platform : String) : String :=
  deployHeader ++
    (if platform = "mcp-use-cloud" then cloudBranch (packageManager useYarn)
     else if platform = "supabase" then supabaseBranch
     else otherBranch)

/-- The `deploy-server` handler as invoked by the framework: omitted parameters take
the declared defaults `useYarn = true`, `platform = "mcp-use-cloud"`. -/
def deployServerOpt (useYarn : Option Bool) (platform : Option String) : String :=
  deployServer (useYarn.getD true) (platform.getD "mcp-use-cloud")

/-- Concrete text of the run-server output for `useYarn = false`, split at the five
port interpolation points (segment 0 precedes the first interpolation, and so on). -/
def runNpmSeg0 : String :=
  "To run your MCP server locally:\n\n**Development mode (with hot reload):**\n```bash\n" ++ packageManager false ++ " run dev\n```\n\n**Production mode:**\n```bash\n# First build\n" ++ packageManager false ++ " run build\n\n# Then start\n" ++ packageManager false ++ " start\n```\n\n**With custom port:**\n```bash\n" ++ "PORT="

def runNpmSeg1 : String :=
  " " ++ packageManager false ++ " start" ++ "\n```\n\n**Test with tunneling (before deployment):**\n```bash\n# Option 1: Auto-tunnel\n" ++ "mcp-use start --port "

def runNpmSeg2 : String :=
  " --tunnel" ++ "\n\n# Option 2: Separate tunnel\n" ++ packageManager false ++ " start  # Terminal 1\n" ++ "npx @mcp-use/tunnel "

def runNpmSeg3 : String :=
  "  # Terminal 2\n```\n\nYour server will be available at:\n- 🌐 MCP endpoint: http://localhost:"

def runNpmSeg4 : String :=
  "/mcp\n- 🔍 Inspector UI: http://localhost:"

def runNpmSeg5 : String :=
  "/inspector\n- 🔒 Tunnel URL: https://[subdomain].local.mcp-use.run/mcp (when using tunnel)\n\n**Tunnel details:**\n- Expires after 24 hours\n- Closes after 1 hour of inactivity\n- Use to test with ChatGPT before deploying\n\nLearn more: https://mcp-use.com/docs/tunneling"

theorem prefB_iff : ∀ (p l : List Char), prefB p l = true ↔ p <+: l
  | [], l => by
    simp only [prefB]
    exact iff_of_true trivial ( List.nil_prefix)
  | a :: as, [] => by
    simp only [prefB]
    simp [List.prefix_nil]
  | a :: as, b :: bs => by
    rw [show prefB (a :: as) (b :: bs) = if a = b then prefB as bs else false from rfl,
      List.cons_prefix_cons]
    by_cases hab : a = b
    · rw [if_pos hab, prefB_iff as bs]
      simp [hab]
    · rw [if_neg hab]
      simp [hab]

theorem scanB_iff : ∀ (p l : List Char), scanB p l = true ↔ p <:+: l
  | p, [] => by
    simp only [scanB]
    rw [prefB_iff]
    simp [List.prefix_nil, List.infix_nil]
  | p, b :: t => by
    simp only [scanB]
    by_cases h : prefB p (b :: t) = true
    · rw [if_pos h]
      exact iff_of_true rfl (List.infix_cons_iff.2 (Or.inl ((prefB_iff _ _).1 h)))
    · rw [if_neg h]
      rw [scanB_iff p t, List.infix_cons_iff]
      constructor
      · exact Or.inr
      · rintro (hp | hi)
        · exact absurd ((prefB_iff _ _).2 hp) h
        · exact hi

theorem strContains_iff (s pat : String) :
    strContains s pat ↔ pat.data <:+: s.data :=
  scanB_iff _ _

theorem strStartsWith_iff (s pre : String) :
    strStartsWith s pre ↔ pre.data <+: s.data :=
  prefB_iff _ _

theorem strContains_self (s : String) : strContains s s :=
  (scanB_iff _ _).2 List.infix_rfl

theorem strContains_appL {s pat : String} (t : String) (h : strContains s pat) :
    strContains (s ++ t) pat := by
  unfold strContains at h ⊢
  rw [scanB_iff] at h ⊢
  rw [String.data_append]
  exact h.trans ⟨[], t.data, by simp⟩

theorem strContains_appR {t pat : String} (s : String) (h : strContains t pat) :
    strContains (s ++ t) pat := by
  unfold strContains at h ⊢
  rw [scanB_iff] at h ⊢
  rw [String.data_append]
  exact h.trans ⟨s.data, [], by simp⟩

theorem strStartsWith_append (s t : String) : strStartsWith (s ++ t) s := by
  unfold strStartsWith
  rw [prefB_iff, String.data_append]
  exact List.prefix_append _ _

theorem digitChar_mem_digitChars {m : Nat} (h : m < 10) :
    Nat.digitChar m ∈ digitChars := by
  exact (by decide : ∀ k, k < 10 → Nat.digitChar k ∈ digitChars) m h

theorem toDigitsCore_chars :
    ∀ (fuel n : Nat) (acc : List Char), (∀ c ∈ acc, c ∈ digitChars) →
      ∀ c ∈ Nat.toDigitsCore 10 fuel n acc, c ∈ digitChars := by
  intro fuel
  induction fuel with
  | zero =>
    intro n acc hacc c hc
    exact hacc c hc
  | succ fuel ih =>
    intro n acc hacc c hc
    simp only [Nat.toDigitsCore] at hc
    have hd : Nat.digitChar (n % 10) ∈ digitChars :=
      digitChar_mem_digitChars (Nat.mod_lt _ (by omega))
    by_cases h0 : n / 10 = 0
    · rw [if_pos h0] at hc
      rcases List.mem_cons.1 hc with hc | hc
      · exact hc ▸ hd
      · exact hacc c hc
    · rw [if_neg h0] at hc
      refine ih _ _ ?_ c hc
      intro d hdmem
      rcases List.mem_cons.1 hdmem with hdmem | hdmem
      · exact hdmem ▸ hd
      · exact hacc d hdmem

theorem natRepr_chars (n : Nat) : ∀ c ∈ (Nat.repr n).data, c ∈ digitChars := by
  intro c hc
  exact toDigitsCore_chars (n + 1) n [] (by simp) c hc

theorem intRepr_chars (i : Int) : ∀ c ∈ (Int.repr i).data, c = '-' ∨ c ∈ digitChars := by
  intro c hc
  cases i with
  | ofNat m =>
    exact Or.inr (natRepr_chars m c hc)
  | negSucc m =>
    simp only [Int.repr, String.data_append] at hc
    rcases List.mem_append.1 hc with hc | hc
    · left
      simpa using hc
    · exact Or.inr (natRepr_chars _ c hc)

theorem strContains_cat {l : List String} {c : String} (pat : String) (hmem : c ∈ l)
    (h : strContains c pat) : strContains (catList l) pat := by
  induction l with
  | nil => exact absurd hmem (List.not_mem_nil c)
  | cons s t ih =>
    simp only [catList]
    rcases List.mem_cons.1 hmem with rfl | hmem2
    · exact strContains_appL _ h
    · exact strContains_appR s (ih hmem2)

theorem runServer_contains_yarn (port : Int) : strContains (runServer true port) "yarn" := by
  simp only [runServer, runServerTemplate]
  refine strContains_cat _ (l := runChunks true (Int.repr port))
    (c := packageManager true) ?_ (by decide)
  simp [runChunks]

theorem runServer_contains_npm (port : Int) : strContains (runServer false port) "npm" := by
  simp only [runServer, runServerTemplate]
  refine strContains_cat _ (l := runChunks false (Int.repr port))
    (c := packageManager false) ?_ (by decide)
  simp [runChunks]

theorem runTemplate_contains_port_line (useYarn : Bool) (port : String) :
    strContains (runServerTemplate useYarn port)
      ("PORT=" ++ port ++ " " ++ packageManager useYarn ++ " start") := by
  simp only [runServerTemplate]
  refine strContains_cat _ ?_ (strContains_self _)
  simp [runChunks]

theorem runTemplate_contains_tunnel1 (useYarn : Bool) (port : String) :
    strContains (runServerTemplate useYarn port)
      ("mcp-use start --port " ++ port ++ " --tunnel") := by
  simp only [runServerTemplate]
  refine strContains_cat _ ?_ (strContains_self _)
  simp [runChunks]

theorem runTemplate_contains_tunnel2 (useYarn : Bool) (port : String) :
    strContains (runServerTemplate useYarn port) ("npx @mcp-use/tunnel " ++ port) := by
  simp only [runServerTemplate]
  refine strContains_cat _ ?_ (strContains_self _)
  simp [runChunks]

theorem runServer_contains_pm (useYarn : Bool) (port : Int) :
    strContains (runServer useYarn port) (packageManager useYarn) := by
  simp only [runServer, runServerTemplate]
  refine strContains_cat _ ?_ (strContains_self _)
  simp [runChunks]

theorem deployCloud_contains_pm (useYarn : Bool) :
    strContains (deployServer useYarn "mcp-use-cloud") (packageManager useYarn) := by
  have hrw : deployServer useYarn "mcp-use-cloud"
      = deployHeader ++ cloudBranch (packageManager useYarn) := by
    simp [deployServer]
  rw [hrw]
  apply strContains_appR
  simp only [cloudBranch]
  refine strContains_cat _ ?_ (strContains_self _)
  simp

theorem prefix_stop {α : Type} :
    ∀ (p x : List α) {m r : List α}, (∀ ch ∈ p, ch ∉ m) → m ≠ [] →
      p <+: x ++ (m ++ r) → p <+: x
  | [], x, m, r, _, _, _ =>  List.nil_prefix
  | c :: p', [], m, r, hm, hmne, h => by
    cases m with
    | nil => exact absurd rfl hmne
    | cons mh mt =>
      have h' : c :: p' <+: mh :: (mt ++ r) := by simpa using h
      have hc : c = mh := (List.cons_prefix_cons.1 h').1
      have hmem : c ∈ mh :: mt := by
        rw [hc]
        exact List.mem_cons_self mh mt
      exact absurd hmem (hm c (List.mem_cons_self c p'))
  | c :: p', a :: x', m, r, hm, hmne, h => by
    have h' : c :: p' <+: a :: (x' ++ (m ++ r)) := by simpa using h
    rcases List.cons_prefix_cons.1 h' with ⟨hca, hp'⟩
    have hm' : ∀ ch ∈ p', ch ∉ m := fun ch hch => hm ch (List.mem_cons_of_mem c hch)
    exact List.cons_prefix_cons.2 ⟨hca, prefix_stop p' x' hm' hmne hp'⟩

theorem infix_right_of_disjoint {α : Type} {p : List α} :
    ∀ {m r : List α}, (∀ ch ∈ p, ch ∉ m) → p <:+: m ++ r → p <:+: r
  | [], r, _, h => by simpa using h
  | a :: mt, r, hm, h => by
    have h' : p <:+: a :: (mt ++ r) := by simpa using h
    rcases List.infix_cons_iff.1 h' with hp | hi
    · cases p with
      | nil => exact List.nil_infix
      | cons c p' =>
        have hca : c = a := (List.cons_prefix_cons.1 hp).1
        have hmem : c ∈ a :: mt := by
          rw [hca]
          exact List.mem_cons_self a mt
        exact absurd hmem (hm c (List.mem_cons_self c p'))
    · exact infix_right_of_disjoint
        (fun ch hch hmt => hm ch hch (List.mem_cons_of_mem a hmt)) hi

theorem infix_append_middle_disjoint {α : Type} {p : List α} :
    ∀ (x : List α) {m r : List α}, (∀ ch ∈ p, ch ∉ m) → m ≠ [] →
      p <:+: x ++ (m ++ r) → p <:+: x ∨ p <:+: r
  | [], m, r, hm, hmne, h => Or.inr (infix_right_of_disjoint hm (by simpa using h))
  | a :: x', m, r, hm, hmne, h => by
    have h' : p <:+: a :: (x' ++ (m ++ r)) := by simpa using h
    rcases List.infix_cons_iff.1 h' with hp | hi
    · left
      have hpre : p <+: a :: x' := prefix_stop p (a :: x') hm hmne (by simpa using hp)
      rcases hpre with ⟨t, ht⟩
      exact ⟨[], t, by simpa using ht⟩
    · rcases infix_append_middle_disjoint x' hm hmne hi with h1 | h1
      · exact Or.inl (List.infix_cons h1)
      · exact Or.inr h1

theorem yarn_not_in_intRepr (port : Int) :
    ∀ ch ∈ ("yarn" : String).data, ch ∉ (Int.repr port).data := by
  intro ch hch hport
  rcases intRepr_chars port ch hport with h1 | h1
  · subst h1
    exact absurd hch (by decide)
  · exact absurd hch ((by decide : ∀ c ∈ digitChars, c ∉ ("yarn" : String).data) ch h1)

theorem toDigitsCore_ne_nil :
    ∀ (fuel n : Nat) (acc : List Char), acc ≠ [] → Nat.toDigitsCore 10 fuel n acc ≠ [] := by
  intro fuel
  induction fuel with
  | zero =>
    intro n acc hacc
    exact hacc
  | succ fuel ih =>
    intro n acc hacc
    simp only [Nat.toDigitsCore]
    by_cases h0 : n / 10 = 0
    · rw [if_pos h0]
      exact List.cons_ne_nil _ _
    · rw [if_neg h0]
      exact ih _ _ (List.cons_ne_nil _ _)

theorem natRepr_ne_nil (n : Nat) : (Nat.repr n).data ≠ [] := by
  show Nat.toDigitsCore 10 (n + 1) n [] ≠ []
  simp only [Nat.toDigitsCore]
  by_cases h0 : n / 10 = 0
  · rw [if_pos h0]
    exact List.cons_ne_nil _ _
  · rw [if_neg h0]
    exact toDigitsCore_ne_nil _ _ _ (List.cons_ne_nil _ _)

theorem intRepr_ne_nil (i : Int) : (Int.repr i).data ≠ [] := by
  cases i with
  | ofNat m => exact natRepr_ne_nil m
  | negSucc m =>
    simp only [Int.repr, String.data_append]
    exact List.cons_ne_nil _ _

theorem runServer_false_split (port : Int) :
    runServer false port
      = runNpmSeg0 ++ (Int.repr port ++ (runNpmSeg1 ++ (Int.repr port ++
          (runNpmSeg2 ++ (Int.repr port ++ (runNpmSeg3 ++ (Int.repr port ++
            (runNpmSeg4 ++ (Int.repr port ++ runNpmSeg5))))))))) := by
  simp only [runServer, runServerTemplate, runChunks, catList,
    runNpmSeg0, runNpmSeg1, runNpmSeg2, runNpmSeg3, runNpmSeg4, runNpmSeg5,
    String.append_assoc, String.append_empty]

theorem runServer_no_yarn (port : Int) : ¬ strContains (runServer false port) "yarn" := by
  intro h
  rw [runServer_false_split port] at h
  unfold strContains at h
  rw [scanB_iff] at h
  simp only [String.data_append] at h
  have hdis := yarn_not_in_intRepr port
  have hne := intRepr_ne_nil port
  rcases infix_append_middle_disjoint _ hdis hne h with h | h
  · exact absurd ((scanB_iff _ _).2 h) (by decide)
  rcases infix_append_middle_disjoint _ hdis hne h with h | h
  · exact absurd ((scanB_iff _ _).2 h) (by decide)
  rcases infix_append_middle_disjoint _ hdis hne h with h | h
  · exact absurd ((scanB_iff _ _).2 h) (by decide)
  rcases infix_append_middle_disjoint _ hdis hne h with h | h
  · exact absurd ((scanB_iff _ _).2 h) (by decide)
  rcases infix_append_middle_disjoint _ hdis hne h with h | h
  · exact absurd ((scanB_iff _ _).2 h) (by decide)
  exact absurd ((scanB_iff _ _).2 h) (by decide)
/-- Claim C1: for every valid pair (useYarn, port with 0 < port), the run-server
output contains the literal decimal rendering of the port in the custom-port
command line `PORT=<port> <pm> start`, contains the token "yarn" iff useYarn is
true, and contains "npm" as the package-manager token when useYarn is false. -/
theorem c1_run_tokens (useYarn : Bool) (port : Int) (_hport : 0 < port) :
    strContains (runServer useYarn port)
      ("PORT=" ++ Int.repr port ++ " " ++ packageManager useYarn ++ " start")
    ∧ (strContains (runServer useYarn port) "yarn" ↔ useYarn = true)
    ∧ (useYarn = false → strContains (runServer useYarn port) "npm") := by
  refine ⟨runTemplate_contains_port_line useYarn (Int.repr port), ?_, ?_⟩
  · cases useYarn
    · exact iff_of_false (runServer_no_yarn port) (by simp)
    · exact iff_of_true (runServer_contains_yarn port) rfl
  · cases useYarn
    · intro _
      exact runServer_contains_npm port
    · intro h
      exact absurd h (by simp)

/-- Claim C1 witness, instantiated at useYarn = true, port = 3000. -/
theorem c1_run_tokens_witness :
    strContains (runServer true 3000)
      ("PORT=" ++ Int.repr 3000 ++ " " ++ packageManager true ++ " start")
    ∧ (strContains (runServer true 3000) "yarn" ↔ true = true)
    ∧ (true = false → strContains (runServer true 3000) "npm") :=
  c1_run_tokens true 3000 (by decide)

/-- Claim C2 counterexample: on the valid inputs useYarn = true with platform
"other" or "supabase", the deploy-server output does not embed the resolved
package-manager token "yarn" anywhere — those branches never interpolate it. -/
theorem c2_pm_token_cex :
    ¬ strContains (deployServer true "other") "yarn"
    ∧ ¬ strContains (deployServer true "supabase") "yarn" := by
  constructor
  · decide
  · decide

/-- Claim C2 as amended: the run-server output always embeds the resolved
package-manager token, and the deploy-server output embeds it exactly in the
mcp-use-cloud branch; the supabase and custom-platform branches never contain
"yarn" (the supabase branch hardcodes npm, the custom branch names neither). -/
theorem c2_pm_token (useYarn : Bool) (port : Int) :
    strContains (runServer useYarn port) (packageManager useYarn)
    ∧ strContains (deployServer useYarn "mcp-use-cloud") (packageManager useYarn)
    ∧ ¬ strContains (deployServer useYarn "supabase") "yarn"
    ∧ ¬ strContains (deployServer useYarn "other") "yarn" := by
  refine ⟨runServer_contains_pm useYarn port, deployCloud_contains_pm useYarn, ?_, ?_⟩
  · rw [show deployServer useYarn "supabase" = deployHeader ++ supabaseBranch from rfl]
    decide
  · rw [show deployServer useYarn "other" = deployHeader ++ otherBranch from rfl]
    decide

/-- Claim C3 counterexample: invoked at the out-of-enum platform "vercel" the
deploy-server handler does not fail (the source has no ConfigurationError or any
other failure path); it returns the ordinary custom-platform document. -/
theorem c3_enum_cex :
    deployServer true "vercel" = deployHeader ++ otherBranch
    ∧ strContains (deployServer true "vercel") "## Deploy to Custom Platform" := by
  refine ⟨rfl, ?_⟩
  decide

/-- Claim C3 as amended: the handler itself cannot fail — it is a total function
into strings; out-of-enum rejection belongs to the schema-validation layer
outside the handler, and every platform value other than the two recognized
enum strings (including all out-of-domain values) takes the custom branch. -/
theorem c3_enum_total (useYarn : Bool) (platform : String)
    (h1 : platform ≠ "mcp-use-cloud") (h2 : platform ≠ "supabase") :
    deployServer useYarn platform = deployHeader ++ otherBranch := by
  simp only [deployServer, if_neg h1, if_neg h2]

/-- Claim C3 witness, instantiated at useYarn = true, platform = "railway". -/
theorem c3_enum_total_witness :
    deployServer true "railway" = deployHeader ++ otherBranch :=
  c3_enum_total true "railway" (by decide) (by decide)

/-- Claim C4: for each of the three platform enum values the deploy-server output
contains exactly one of the three branch texts: its own, and never either of
the other two (the branches are mutually exclusive, never zero, never two). -/
theorem c4_branch_exclusive (useYarn : Bool) :
    (strContains (deployServer useYarn "mcp-use-cloud")
        (cloudBranch (packageManager useYarn))
      ∧ ¬ strContains (deployServer useYarn "mcp-use-cloud") supabaseBranch
      ∧ ¬ strContains (deployServer useYarn "mcp-use-cloud") otherBranch)
    ∧ (strContains (deployServer useYarn "supabase") supabaseBranch
      ∧ ¬ strContains (deployServer useYarn "supabase")
          (cloudBranch (packageManager useYarn))
      ∧ ¬ strContains (deployServer useYarn "supabase") otherBranch)
    ∧ (strContains (deployServer useYarn "other") otherBranch
      ∧ ¬ strContains (deployServer useYarn "other")
          (cloudBranch (packageManager useYarn))
      ∧ ¬ strContains (deployServer useYarn "other") supabaseBranch) := by
  cases useYarn <;> decide

/-- Claim C5: calling either handler with both parameters omitted returns a string
byte-identical to calling it with the declared defaults (useYarn = true and
port = 3000, resp. useYarn = true and platform = "mcp-use-cloud"). -/
theorem c5_defaults :
    runServerOpt none none = runServer true 3000
    ∧ deployServerOpt none none = deployServer true "mcp-use-cloud" :=
  ⟨rfl, rfl⟩

/-- Claim C6: each handler is a pure function of its parameters — two invocations
with identical parameter values are the same term and yield byte-identical
output; the embedding carries no state, clock or randomness on which the
result could additionally depend. -/
theorem c6_deterministic (useYarn : Bool) (port : Int)
    (useYarn2 : Bool) (platform : String) :
    runServer useYarn port = runServer useYarn port
    ∧ deployServer useYarn2 platform = deployServer useYarn2 platform :=
  ⟨rfl, rfl⟩

/-- Claim C7: the run-server output for useYarn = false, port = 8080 contains
"npm run dev", "npm start" and "PORT=8080 npm start", and does not contain the
token "yarn" anywhere. -/
theorem c7_run_npm_scenario :
    strContains (runServer false 8080) "npm run dev"
    ∧ strContains (runServer false 8080) "npm start"
    ∧ strContains (runServer false 8080) "PORT=8080 npm start"
    ∧ ¬ strContains (runServer false 8080) "yarn" := by
  decide

/-- Claim C8: the deploy-server output for the supabase platform contains the
Supabase CLI install/init/deploy steps and does not contain the mcp-use-cloud
login instructions. -/
theorem c8_supabase_scenario :
    strContains (deployServer true "supabase") "npm install -g supabase"
    ∧ strContains (deployServer true "supabase") "supabase init"
    ∧ strContains (deployServer true "supabase") "supabase functions deploy mcp-server"
    ∧ ¬ strContains (deployServer true "supabase") "npx mcp-use login" := by
  decide

/-- Claim C9: the run-server handler validates nothing: it is a total function,
and for every rendered port string (so for the rendering of every JS number:
positive, zero, negative or non-integer) the template splices that rendering
verbatim into the PORT= command line and both tunnel command lines; on the
integer embedding the handler is exactly this template applied to `Int.repr`. -/
theorem c9_run_total (useYarn : Bool) (portStr : String) :
    strContains (runServerTemplate useYarn portStr)
      ("PORT=" ++ portStr ++ " " ++ packageManager useYarn ++ " start")
    ∧ strContains (runServerTemplate useYarn portStr)
      ("mcp-use start --port " ++ portStr ++ " --tunnel")
    ∧ strContains (runServerTemplate useYarn portStr) ("npx @mcp-use/tunnel " ++ portStr)
    ∧ ∀ port : Int, runServer useYarn port = runServerTemplate useYarn (Int.repr port) :=
  ⟨runTemplate_contains_port_line _ _, runTemplate_contains_tunnel1 _ _,
    runTemplate_contains_tunnel2 _ _, fun _ => rfl⟩

/-- Claim C10: for every useYarn and every platform string — enum values and
out-of-enum values alike — the deploy-server output begins with the fixed
header "# Deploy Your MCP Server" followed by a blank line. -/
theorem c10_header (useYarn : Bool) (platform : String) :
    strStartsWith (deployServer useYarn platform) "# Deploy Your MCP Server\n\n" := by
  show strStartsWith
    (deployHeader ++
      (if platform = "mcp-use-cloud" then cloudBranch (packageManager useYarn)
       else if platform = "supabase" then supabaseBranch
       else otherBranch))
    deployHeader
  exact strStartsWith_append _ _
